import Mathlib

/-!
Verification development for the common_crawl_parser repository.

The Python sources under src/ are shallowly embedded as Lean definitions:
Python strings become lists of characters (`Str`), SQLite tables become
association lists keyed by their primary key, and the stateful pipeline
code becomes explicit state passing or small-step transition relations.
External library calls (the JSON decoder, the HTTP client, the regex
engine of `re.search` where noted) are modelled as structured inputs or
function parameters; everything else is translated directly from the
source text.
-/

namespace CCV

/-- Python strings are modelled as lists of characters so that all string
operations compute by kernel reduction. -/
abbrev Str := List Char

/-- Python `s.lower()` (ASCII case folding, which is what the source data uses). -/
def lowerStr (s : Str) : Str := s.map Char.toLower

/-- Python `line.startswith(p)`. -/
def startsWith (s p : Str) : Bool := p.isPrefixOf s

/-- Python substring test `needle in hay` for strings. -/
def hasSub (needle : Str) : Str → Bool
  | [] => needle.isEmpty
  | c :: rest => needle.isPrefixOf (c :: rest) || hasSub needle rest

namespace Checkpoint

/-- One row of the `domains` table of checkpoint.py (`_init_db`):
`domain TEXT PRIMARY KEY, tld, country, is_ecommerce INTEGER, cms TEXT,
timestamp TEXT, language TEXT, url_count INTEGER DEFAULT 1`. -/
structure DomainRow where
  domain : Str
  tld : Str
  country : Str
  is_ecommerce : Nat
  cms : Str
  timestamp : Str
  language : Str
  url_count : Nat
deriving DecidableEq, Repr

/-- The `domains` table: a list of rows whose `domain` field is the primary key. -/
abbrev DomainsTable := List DomainRow

/-- SQL row lookup by primary key. -/
def findDomain (tbl : DomainsTable) (d : Str) : Option DomainRow :=
  tbl.find? (fun r => r.domain == d)

/-- The argument tuple of `CheckpointManager.save_domain(domain, tld, country,
is_ecommerce, cms, timestamp, language, url_count=1)`.  `cms` is `Option Str`
because callers may pass `None`. -/
structure SaveArgs where
  domain : Str
  tld : Str
  country : Str
  is_ecommerce : Bool
  cms : Option Str
  timestamp : Str
  language : Str
  url_count : Nat := 1
deriving DecidableEq, Repr

/-- Python `cms or ''` as used in the bound parameter list of `save_domain`. -/
def cmsOrEmpty (c : Option Str) : Str :=
  match c with
  | none => []
  | some s => s

/-- Python `1 if is_ecommerce else 0`. -/
def boolToFlag (b : Bool) : Nat := if b then 1 else 0

/-- The row inserted by `save_domain` when no row with this domain exists
(the plain `INSERT INTO domains ... VALUES` branch). -/
def insertedRow (a : SaveArgs) : DomainRow :=
  ⟨a.domain, a.tld, a.country, boolToFlag a.is_ecommerce, cmsOrEmpty a.cms,
   a.timestamp, a.language, a.url_count⟩

/-- The `ON CONFLICT(domain) DO UPDATE SET` clause of `save_domain`:
`url_count = url_count + ?` with the literal parameter `1`,
`cms = COALESCE(NULLIF(excluded.cms, ''), cms)` and
`is_ecommerce = MAX(is_ecommerce, excluded.is_ecommerce)`.
`excluded.cms` is the value the failed insert carried, namely `cms or ''`. -/
def conflictUpdate (r : DomainRow) (a : SaveArgs) : DomainRow :=
  { r with
    url_count := r.url_count + 1,
    cms := if cmsOrEmpty a.cms ≠ [] then cmsOrEmpty a.cms else r.cms,
    is_ecommerce := max r.is_ecommerce (boolToFlag a.is_ecommerce) }

/-- Table-level effect of `CheckpointManager.save_domain` (checkpoint.py,
lines 122 to 135): an upsert on the `domains` primary key. -/
def save_domain (tbl : DomainsTable) (a : SaveArgs) : DomainsTable :=
  if (findDomain tbl a.domain).isSome then
    tbl.map (fun r => if r.domain == a.domain then conflictUpdate r a else r)
  else
    tbl ++ [insertedRow a]

/-- Spec-side reading of the merge rule for the platform label: the first
non-empty cms value submitted across a sequence of upserts, empty if none. -/
def firstNonEmptyCms (us : List SaveArgs) : Str :=
  match us.find? (fun u => !(cmsOrEmpty u.cms).isEmpty) with
  | some u => cmsOrEmpty u.cms
  | none => []

/-- The cms value the code actually keeps: the last non-empty value submitted,
empty if none was ever submitted. -/
def lastNonEmptyCms (us : List SaveArgs) : Str :=
  us.foldl (fun acc u => if cmsOrEmpty u.cms ≠ [] then cmsOrEmpty u.cms else acc) []

/-- OR over all submitted e-commerce flags, as the stored 0/1 integer. -/
def orFlags (us : List SaveArgs) : Nat := if us.any (fun u => u.is_ecommerce) then 1 else 0

/-- The in-memory `Stats` object of crawler_disk.py restricted to the ten
fields that `save_stats` persists and `load_stats` reads.  The two dict-valued
fields are association lists; `json.dumps`/`json.loads` round-trips them
verbatim, so serialization is modelled as the identity. -/
structure Stats where
  total_urls : Nat
  total_domains : Nat
  ecommerce_count : Nat
  skipped : Nat
  live_checked : Nat
  live_detected : Nat
  start_time : ℚ
  domains_by_tld : List (Str × Nat)
  cms_counts : List (Str × Nat)
  live_platforms : List (Str × Nat)
deriving DecidableEq, Repr

/-- The singleton `stats` table row (`id = 1`).  Field names mirror the
columns; the three JSON columns hold the serialized maps. -/
structure StatsRow where
  total_urls : Nat
  total_domains : Nat
  ecommerce_count : Nat
  skipped : Nat
  live_checked : Nat
  live_detected : Nat
  start_time : ℚ
  domains_by_tld : List (Str × Nat)
  cms_counts : List (Str × Nat)
  live_platforms : List (Str × Nat)
deriving DecidableEq, Repr

/-- `CheckpointManager.save_stats` (checkpoint.py, lines 149 to 168):
`INSERT OR REPLACE INTO stats (id, ...) VALUES (1, ...)` — a full replace of
the singleton row from the Stats object. -/
def save_stats (s : Stats) (_row : Option StatsRow) : Option StatsRow :=
  some ⟨s.total_urls, s.total_domains, s.ecommerce_count, s.skipped,
        s.live_checked, s.live_detected, s.start_time,
        s.domains_by_tld, s.cms_counts, s.live_platforms⟩

/-- `CheckpointManager.load_stats` (checkpoint.py, lines 170 to 188): when the
singleton row exists it assigns `total_urls .. live_detected` from columns 0-5
and the three maps from columns 7-9 and returns True; column 6 (`start_time`)
is never assigned to the Stats object.  When no row exists it returns False
and leaves the object untouched. -/
def load_stats (row : Option StatsRow) (stats : Stats) : Stats × Bool :=
  match row with
  | some r =>
      ({ stats with
          total_urls := r.total_urls,
          total_domains := r.total_domains,
          ecommerce_count := r.ecommerce_count,
          skipped := r.skipped,
          live_checked := r.live_checked,
          live_detected := r.live_detected,
          domains_by_tld := r.domains_by_tld,
          cms_counts := r.cms_counts,
          live_platforms := r.live_platforms }, true)
  | none => (stats, false)

/-- The flush-pacing state of `CheckpointManager.__init__` (checkpoint.py,
lines 16 to 23): the two configured intervals (defaults 1000 domains and 60
seconds) together with the mutable counter and last-flush wall-clock time.
Wall-clock instants (`time.time()` values) are rationals. -/
structure FlushState where
  save_interval_domains : Nat
  save_interval_seconds : Nat
  last_save_time : ℚ
  domains_since_save : Nat
deriving DecidableEq, Repr

/-- The constructor defaults `save_interval_domains=1000, save_interval_seconds=60`,
with `last_save_time = time.time()` and `domains_since_save = 0`. -/
def initFlushState (now : ℚ) : FlushState :=
  ⟨1000, 60, now, 0⟩

/-- `CheckpointManager.should_save` (checkpoint.py, lines 190 to 195):
`domains_since_save >= save_interval_domains or
now - last_save_time >= save_interval_seconds`. -/
def should_save (st : FlushState) (now : ℚ) : Bool :=
  decide (st.save_interval_domains ≤ st.domains_since_save) ||
  decide ((st.save_interval_seconds : ℚ) ≤ now - st.last_save_time)

/-- `CheckpointManager.commit` (checkpoint.py, lines 197 to 201): commits the
connection, then sets `last_save_time = time.time()` and
`domains_since_save = 0`. -/
def commit (st : FlushState) (now : ℚ) : FlushState :=
  { st with last_save_time := now, domains_since_save := 0 }

/-- A live SQLite connection as far as `close` is concerned: the writes
already committed to disk and the uncommitted pending writes. -/
structure DbConn where
  durable : List Str
  pending : List Str
deriving DecidableEq, Repr

/-- The connection-owning state of a `CheckpointManager`: `self.conn`
(None once closed) plus the durable database contents. -/
structure ConnState where
  conn : Option DbConn
  disk : List Str
deriving DecidableEq, Repr

/-- `CheckpointManager.close` (checkpoint.py, lines 230 to 234):
`if self.conn: commit; close; self.conn = None` — a no-op when `self.conn`
is already None. -/
def close (s : ConnState) : ConnState :=
  match s.conn with
  | some c => ⟨none, s.disk ++ c.pending⟩
  | none => s

/-- The pending writes that a `close` call would flush. -/
def pendingOf (s : ConnState) : List Str :=
  match s.conn with
  | some c => c.pending
  | none => []

/-- One row of the `tld_progress` table: `tld TEXT PRIMARY KEY, urls_scanned,
domains_found, completed INTEGER, last_url, last_timestamp`.  `completed` is
stored as the integer 1 or 0 by `save_tld_progress`, modelled as a Bool. -/
structure TldProgressRow where
  tld : Str
  urls_scanned : Nat
  domains_found : Nat
  completed : Bool
  last_url : Str
  last_timestamp : Str
deriving DecidableEq, Repr

/-- The `tld_progress` table, keyed by `tld`. -/
abbrev TldProgressTable := List TldProgressRow

/-- `CheckpointManager.get_tld_progress`: `SELECT ... WHERE tld = ?`, giving
the row as a record (with `completed = bool(row[2])`) or None. -/
def get_tld_progress (tbl : TldProgressTable) (tld : Str) : Option TldProgressRow :=
  tbl.find? (fun r => r.tld == tld)

/-- `CheckpointManager.get_completed_tlds` (checkpoint.py, lines 118 to 120):
`SELECT tld FROM tld_progress WHERE completed = 1`, returned as a set. -/
def get_completed_tlds (tbl : TldProgressTable) : List Str :=
  (tbl.filter (fun r => r.completed)).map (fun r => r.tld)

/-- `CheckpointManager.get_domains_for_tld`: `SELECT domain FROM domains WHERE tld = ?`. -/
def get_domains_for_tld (tbl : DomainsTable) (tld : Str) : List Str :=
  (tbl.filter (fun r => r.tld == tld)).map (fun r => r.domain)

end Checkpoint

namespace Disk

open Checkpoint

/-- The `TLD_COUNTRIES` constant of crawler_disk.py. -/
def TLD_COUNTRIES : List (Str × Str) :=
  [("cl", "Chile"), ("pe", "Peru"), ("ar", "Argentina"), ("au", "Australia"),
   ("us", "United States"), ("ca", "Canada"), ("uk", "United Kingdom"),
   ("za", "South Africa"), ("jp", "Japan"), ("de", "Germany")].map
    (fun p => (p.1.toList, p.2.toList))

/-- The `ECOMMERCE_KW` constant of crawler_disk.py. -/
def ECOMMERCE_KW : List Str :=
  ["cart", "checkout", "shop", "store", "product", "buy", "order"].map String.toList

/-- The `BAD_PATTERNS` constant of crawler_disk.py. -/
def BAD_PATTERNS : List Str :=
  ["example.", "test.", "localhost", ".gov.", ".edu."].map String.toList

/-- Python `TLD_COUNTRIES.get(tld, default)`. -/
def dictGet (m : List (Str × Str)) (k : Str) (dflt : Str) : Str :=
  ((m.find? (fun p => p.1 == k)).map (fun p => p.2)).getD dflt

/-- Characters admitted by the `[^/:]+` group of the host-extraction regex. -/
def isHostChar (c : Char) : Bool := c ≠ '/' && c ≠ ':'

/-- The scheme part of the regex: `https?://` matched at this exact position,
returning the remainder when it matches. -/
def matchSchemeAt (cs : Str) : Option Str :=
  if startsWith cs ("https://".toList) then some (cs.drop 8)
  else if startsWith cs ("http://".toList) then some (cs.drop 7)
  else none

/-- One anchored attempt of the pattern `https?://(?:www\.)?([^/:]+)`,
returning the capture group.  The optional `www.` is tried greedily first and
abandoned when the following `[^/:]+` group would be empty, exactly the
backtracking behaviour of `re.search`. -/
def hostAt (cs : Str) : Option Str :=
  match matchSchemeAt cs with
  | none => none
  | some rest =>
      let withWww : Option Str :=
        if startsWith rest ("www.".toList) then
          let run := (rest.drop 4).takeWhile isHostChar
          if run.isEmpty then none else some run
        else none
      match withWww with
      | some g => some g
      | none =>
          let run := rest.takeWhile isHostChar
          if run.isEmpty then none else some run

/-- Leftmost search of the host pattern, as `re.search` does. -/
def searchHost : Str → Option Str
  | [] => none
  | c :: cs =>
      match hostAt (c :: cs) with
      | some g => some g
      | none => searchHost cs

/-- `extract_domain_from_url` (crawler_disk.py, lines 145 to 147):
the first regex capture, lowercased, or None. -/
def extract_domain_from_url (url : Str) : Option Str :=
  (searchHost url).map lowerStr

/-- The JSON payload fields of a CDX line that `process_chunk_from_disk`
reads.  The call `json.loads(json_str)` is an external decoder; a line whose
JSON (or whose 3-way split) fails is represented with `data = none`. -/
structure CdxData where
  status : Str
  mime : Str
  url : Str
  languages : Str
deriving DecidableEq, Repr

/-- One stripped chunk line, pre-split as `surt timestamp json` by
`line_str.split(' ', 2)`.  Prefix matching against `f"{tld},"` happens on the
leading SURT field. -/
structure ChunkLine where
  surt : Str
  timestamp : Str
  data : Option CdxData
deriving DecidableEq, Repr

/-- Python `dict.get(k, 0)` for the counter maps of `Stats`. -/
def getCount (m : List (Str × Nat)) (k : Str) : Nat :=
  ((m.find? (fun p => p.1 == k)).map (fun p => p.2)).getD 0

/-- `self.domains_by_tld[tld] = self.domains_by_tld.get(tld, 0) + 1`. -/
def bumpCount (m : List (Str × Nat)) (k : Str) : List (Str × Nat) :=
  if (m.find? (fun p => p.1 == k)).isSome then
    m.map (fun p => if p.1 == k then (p.1, p.2 + 1) else p)
  else m ++ [(k, 1)]

/-- The shared mutable state threaded through `process_chunk_from_disk`: the
dedup set `seen`, the `Stats` counters it touches, the checkpoint `domains`
table, the per-chunk write batch, the per-chunk `counts` map and the optional
live-check queue. -/
structure PipeState where
  seen : List Str
  domainsByTld : List (Str × Nat)
  totalDomains : Nat
  ecommerceCount : Nat
  table : DomainsTable
  batch : List SaveArgs
  counts : List (Str × Nat)
  liveQueue : Option (List Str)
deriving DecidableEq, Repr

/-- `Stats.add(tld, ecom)`: bumps `total_domains`, the per-TLD counter, and
`ecommerce_count` when `ecom` holds. -/
def statsAdd (st : PipeState) (tld : Str) (ecom : Bool) : PipeState :=
  { st with
    totalDomains := st.totalDomains + 1,
    domainsByTld := bumpCount st.domainsByTld tld,
    ecommerceCount := if ecom then st.ecommerceCount + 1 else st.ecommerceCount }

/-- Writing the staged batch through `checkpoint.save_domain` followed by
`checkpoint.commit()`, as done at the 200-item threshold and at chunk end. -/
def flushBatch (st : PipeState) : PipeState :=
  { st with table := st.batch.foldl save_domain st.table, batch := [] }

/-- The body of the accepted-domain branch of `process_chunk_from_disk`:
dedup insertion already happened; classify, count, enqueue for live check,
stage the checkpoint record, and flush the batch at 200 items. -/
def acceptDomain (st : PipeState) (tld : Str) (domain : Str) (line : ChunkLine)
    (data : CdxData) : PipeState :=
  let ecom := ECOMMERCE_KW.any (fun k => hasSub k (lowerStr data.url))
  let st := statsAdd st tld ecom
  let st := { st with counts := bumpCount st.counts tld }
  let st := { st with liveQueue := st.liveQueue.map (fun q => q ++ [domain]) }
  let st := { st with batch := st.batch ++
    [⟨domain, tld, dictGet TLD_COUNTRIES tld ("Unknown".toList), ecom,
      some [], line.timestamp, data.languages, 1⟩] }
  if 200 ≤ st.batch.length then flushBatch st else st

/-- One iteration of the per-line loop of `process_chunk_from_disk`
(crawler_disk.py, lines 166 to 233).  `tldPre` is the `tld_prefixes` map
(pairs of `f"{tld},"` and `tld`), `limit` the per-TLD cap.  Every filtered or
malformed line leaves the state unchanged (`continue`, and the enclosing
`except Exception: continue`). -/
def processLine (tldPre : List (Str × Str)) (limit : Nat) (st : PipeState)
    (line : ChunkLine) : PipeState :=
  match tldPre.find? (fun p => startsWith line.surt p.1) with
  | none => st
  | some pre =>
      if limit ≤ getCount st.domainsByTld pre.2 then st
      else
        match line.data with
        | none => st
        | some data =>
            if data.status ≠ "200".toList then st
            else if !hasSub ("html".toList) data.mime then st
            else
              match extract_domain_from_url data.url with
              | none => st
              | some domain =>
                  if BAD_PATTERNS.any (fun b => hasSub b domain) then st
                  else if domain ∈ st.seen then st
                  else
                    acceptDomain { st with seen := domain :: st.seen } pre.2 domain line data

/-- `process_chunk_from_disk` over a decoded chunk: fold the per-line loop,
then flush the remaining batch (`if checkpoint and batch:` at chunk end).
Display-only counters (`lines_count`) are not part of the modelled state. -/
def process_chunk_from_disk (tldPre : List (Str × Str)) (limit : Nat)
    (lines : List ChunkLine) (st : PipeState) : PipeState :=
  let st := lines.foldl (processLine tldPre limit) st
  if st.batch.isEmpty then st else flushBatch st

/-- Outcome of `download_to_disk(url, chunk_path)`: the `requests.get` call
may raise before the destination file is opened, the streaming write may
raise after the file came into existence, or the download completes. -/
inductive DownloadOutcome
  | raisedBeforeCreate
  | raisedAfterCreate
  | completed
deriving DecidableEq, Repr

/-- Outcome of the `process_chunk_from_disk` call inside `process_chunk`:
it either returns or raises. -/
inductive BodyOutcome
  | completed
  | raised
deriving DecidableEq, Repr

/-- The local chunk-cache directory: the set of chunk ids whose `cdx-NNNNN.gz`
file currently exists. -/
structure DiskDir where
  files : List Nat
deriving DecidableEq, Repr

/-- Creation of the chunk file by `download_to_disk`. -/
def addFile (d : DiskDir) (c : Nat) : DiskDir :=
  ⟨if c ∈ d.files then d.files else c :: d.files⟩

/-- `os.remove(chunk_path)`. -/
def removeFile (d : DiskDir) (c : Nat) : DiskDir :=
  ⟨d.files.filter (fun x => x ≠ c)⟩

/-- `chunk_path.exists()`. -/
def hasFile (d : DiskDir) (c : Nat) : Bool := c ∈ d.files

/-- The disk effect of `process_chunk` (crawler_disk.py, lines 245 to 270) for
chunk `cid`.  `relevant` is `tlds_in_chunk ≠ []` (otherwise the function
returns before touching the disk).  The `try/finally` block downloads, then
processes, and the finally clause removes the chunk file whenever it exists —
on normal return and when either stage raised.  The `os.remove` call itself
is modelled as succeeding (its own failure is an OS-level event the source
only logs).  The returned Bool tells whether the body completed without an
exception. -/
def process_chunk (cid : Nat) (relevant : Bool) (dl : DownloadOutcome)
    (body : BodyOutcome) (disk : DiskDir) : DiskDir × Bool :=
  if !relevant then (disk, true)
  else
    let afterDl : DiskDir × Bool :=
      match dl with
      | .raisedBeforeCreate => (disk, false)
      | .raisedAfterCreate => (addFile disk cid, false)
      | .completed => (addFile disk cid, true)
    let bodyOk : Bool :=
      afterDl.2 && (match body with | .completed => true | .raised => false)
    let cleaned :=
      if hasFile afterDl.1 cid then removeFile afterDl.1 cid else afterDl.1
    (cleaned, bodyOk)

/-- Counter abstraction of the chunk workers and the
`threading.Semaphore(args.cache_size)` guarding the disk cache: how many
workers are before `worker`s `with semaphore` line, inside it before the
chunk file exists, inside it with the chunk file on disk, inside it after the
finally-block deletion, and done. -/
structure CacheSys where
  idle : Nat
  holdNoFile : Nat
  holdFile : Nat
  holdDone : Nat
  finished : Nat
deriving DecidableEq, Repr

/-- Number of workers currently holding a semaphore slot. -/
def CacheSys.holding (s : CacheSys) : Nat := s.holdNoFile + s.holdFile + s.holdDone

/-- Number of chunk files currently on local disk (each in-flight worker owns
at most the one file it downloaded). -/
def CacheSys.filesOnDisk (s : CacheSys) : Nat := s.holdFile

/-- Interleaved execution of the chunk workers under a cache-size semaphore
of capacity `cap`.  `acquire` needs a free slot; `download` materialises the
chunk file; `skipOrFail` covers both the irrelevant-chunk early return and a
download that raised before creating the file; `cleanup` is the guaranteed
finally-block deletion, taken on success and on exception alike; `release`
leaves the `with semaphore` block. -/
inductive CacheStep (cap : Nat) : CacheSys → CacheSys → Prop
  | acquire (s : CacheSys) : 0 < s.idle → s.holding < cap →
      CacheStep cap s ⟨s.idle - 1, s.holdNoFile + 1, s.holdFile, s.holdDone, s.finished⟩
  | download (s : CacheSys) : 0 < s.holdNoFile →
      CacheStep cap s ⟨s.idle, s.holdNoFile - 1, s.holdFile + 1, s.holdDone, s.finished⟩
  | skipOrFail (s : CacheSys) : 0 < s.holdNoFile →
      CacheStep cap s ⟨s.idle, s.holdNoFile - 1, s.holdFile, s.holdDone + 1, s.finished⟩
  | cleanup (s : CacheSys) : 0 < s.holdFile →
      CacheStep cap s ⟨s.idle, s.holdNoFile, s.holdFile - 1, s.holdDone + 1, s.finished⟩
  | release (s : CacheSys) : 0 < s.holdDone →
      CacheStep cap s ⟨s.idle, s.holdNoFile, s.holdFile, s.holdDone - 1, s.finished + 1⟩

/-- Start of a run: `n` workers submitted, none holding, empty cache
(main() clears leftover `*.gz` files before starting). -/
def cacheInit (n : Nat) : CacheSys := ⟨n, 0, 0, 0, 0⟩

/-- States reachable by interleaving worker steps from the initial state. -/
def CacheReachable (cap n : Nat) : CacheSys → Prop :=
  Relation.ReflTransGen (CacheStep cap) (cacheInit n)

/-- State of the live-check stage: the verification queue (None entries are
the poison sentinels), the `crawl_done` event, the domains processed by the
worker so far, the ghost list of all real domains ever enqueued, and whether
the worker has left its consume loop. -/
structure LiveSys where
  queue : List (Option Str)
  done : Bool
  processed : List Str
  enqueued : List Str
  exited : Bool
deriving DecidableEq, Repr

/-- Transitions of the live-check stage (crawler_disk.py: `live_worker`,
lines 416 to 441, and the shutdown protocol of `main`, lines 480 to 489).
Producers enqueue only while the crawl is running (`crawl_done` unset);
`main` pushes the None sentinels only after `crawl_done.set()` and
`live_queue.join()`, hence with no real items left in the queue.  The worker
dequeues items, exits on a dequeued sentinel, and exits from its
`queue.Empty` handler only when `crawl_done.is_set() and live_queue.empty()`;
an empty `get` with the crawl still running simply retries and is not a
state change. -/
inductive LiveStep : LiveSys → LiveSys → Prop
  | enqueue (s : LiveSys) (d : Str) : s.done = false →
      LiveStep s { s with queue := s.queue ++ [some d], enqueued := s.enqueued ++ [d] }
  | pushSentinel (s : LiveSys) : s.done = true → s.queue.filterMap id = [] →
      LiveStep s { s with queue := s.queue ++ [none] }
  | setDone (s : LiveSys) : LiveStep s { s with done := true }
  | getItem (s : LiveSys) (d : Str) (rest : List (Option Str)) :
      s.exited = false → s.queue = some d :: rest →
      LiveStep s { s with queue := rest, processed := s.processed ++ [d] }
  | getSentinel (s : LiveSys) (rest : List (Option Str)) :
      s.exited = false → s.queue = none :: rest →
      LiveStep s { s with queue := rest, exited := true }
  | timeoutExit (s : LiveSys) : s.exited = false → s.done = true → s.queue = [] →
      LiveStep s { s with exited := true }

/-- Start of the live-check stage: empty queue, crawl running, worker in its loop. -/
def liveInit : LiveSys := ⟨[], false, [], [], false⟩

/-- States reachable by the live-check stage. -/
def LiveReachable : LiveSys → Prop :=
  Relation.ReflTransGen LiveStep liveInit

/-- Digits-to-int conversion for the regex capture, `int(match.group(1))`. -/
def digitsToNat (ds : Str) : Nat :=
  ds.foldl (fun n c => 10 * n + (c.toNat - 48)) 0

/-- One anchored attempt of the pattern `cdx-(\d+)\.gz`: the literal `cdx-`,
a nonempty maximal digit run, then the literal `.gz` (shorter digit runs
cannot be followed by a dot, so no other backtracking alternative exists). -/
def chunkIdAt (cs : Str) : Option Nat :=
  if startsWith cs ("cdx-".toList) then
    let rest := cs.drop 4
    let ds := rest.takeWhile Char.isDigit
    if ds.isEmpty then none
    else if startsWith (rest.drop ds.length) (".gz".toList) then some (digitsToNat ds)
    else none
  else none

/-- Leftmost `re.search` of `chunk_pattern` over a cluster-index line. -/
def chunkPatternSearch : Str → Option Nat
  | [] => none
  | c :: cs =>
      match chunkIdAt (c :: cs) with
      | some n => some n
      | none => chunkPatternSearch cs

/-- Python set insertion for the chunk-id sets. -/
def setInsert (l : List Nat) (c : Nat) : List Nat :=
  if c ∈ l then l else l ++ [c]

/-- `tld_chunks[tld].add(chunk_id)` on the `defaultdict(set)`: update the
entry for the key in place, or append a fresh singleton entry. -/
def mapAdd : List (Str × List Nat) → Str → Nat → List (Str × List Nat)
  | [], t, c => [(t, [c])]
  | p :: rest, t, c =>
      if p.1 = t then (p.1, setInsert p.2 c) :: rest
      else p :: mapAdd rest t c

/-- Reading `tld_chunks[tld]` (a missing key is the empty set). -/
def mapGet (m : List (Str × List Nat)) (t : Str) : List Nat :=
  ((m.find? (fun p => p.1 == t)).map (fun p => p.2)).getD []

/-- The inner loop of `find_chunks_for_tlds` for one cluster-index line:
the first requested tld whose `f"{tld},"` prefixes the line (the loop breaks
after a match) records the chunk id found on the line, if any. -/
def scanLine (tlds : List Str) (m : List (Str × List Nat)) (line : Str) :
    List (Str × List Nat) :=
  match tlds.find? (fun t => startsWith line (t ++ [','])) with
  | none => m
  | some t =>
      match chunkPatternSearch line with
      | some c => mapAdd m t c
      | none => m

/-- The `tld_chunks` map accumulated over all cluster-index lines. -/
def tldChunksOf (tlds : List Str) (lines : List Str) : List (Str × List Nat) :=
  lines.foldl (scanLine tlds) []

/-- The `all_chunks` set: the union of the per-tld chunk sets over the
requested tlds. -/
def allChunksOf (tlds : List Str) (lines : List Str) : List Nat :=
  tlds.foldl (fun acc t => (mapGet (tldChunksOf tlds lines) t).foldl setInsert acc) []

/-- `find_chunks_for_tlds` (crawler_disk.py, lines 103 to 142), with the
cluster index given as its list of lines (the download/caching of
`cluster.idx` is I/O around this computation): returns
`sorted(all_chunks)` and the per-tld map, which holds an entry for every
requested tld (the summary loop reads `tld_chunks[tld]` for each, so tlds
with no matching line are present with an empty set and merely reported). -/
def find_chunks_for_tlds (tlds : List Str) (lines : List Str) :
    List Nat × List (Str × List Nat) :=
  (List.insertionSort (· ≤ ·) (allChunksOf tlds lines),
   tlds.map (fun t => (t, mapGet (tldChunksOf tlds lines) t)))

end Disk

namespace Detector

/-- The parts of a `requests.Response` that `check_domain` consumes.
`cookies` is the textual rendering `str(response.cookies)` that
`detect_from_cookies` operates on. -/
structure HttpResponse where
  status_code : Nat
  headers : List (Str × Str)
  cookies : Str
  text : Str
deriving DecidableEq, Repr

/-- The possible outcomes of the `requests.get` call inside `fetch_url`,
one per exception handler plus success. -/
inductive FetchOutcome
  | success (r : HttpResponse)
  | timedOut
  | sslFailure
  | connectionFailure
  | tooManyRedirects
  | requestFailure (msg : Str)
deriving DecidableEq, Repr

/-- The scheme normalization at the top of `fetch_url`. -/
def normalizeUrl (url : Str) : Str :=
  if startsWith url ("http://".toList) || startsWith url ("https://".toList) then url
  else "https://".toList ++ url

/-- `fetch_url` (detector.py, lines 27 to 47): returns
`(response, '')` on success and `(None, message)` for each handled
exception class, with the generic handler truncating `str(e)` to 30
characters behind an `error: ` tag. -/
def fetch_url (outcome : FetchOutcome) : Option HttpResponse × Str :=
  match outcome with
  | .success r => (some r, [])
  | .timedOut => (none, "timeout".toList)
  | .sslFailure => (none, "ssl_error".toList)
  | .connectionFailure => (none, "connection_error".toList)
  | .tooManyRedirects => (none, "too_many_redirects".toList)
  | .requestFailure msg => (none, "error: ".toList ++ msg.take 30)

/-- Python dict insertion for the `headers_lower` comprehension: a repeated
key overwrites in place, a new key appends. -/
def dictInsertStr (m : List (Str × Str)) (k v : Str) : List (Str × Str) :=
  if (m.find? (fun p => p.1 == k)).isSome then
    m.map (fun p => if p.1 == k then (p.1, v) else p)
  else m ++ [(k, v)]

/-- `{k.lower(): v.lower() for k, v in headers.items()}`. -/
def headersLower (headers : List (Str × Str)) : List (Str × Str) :=
  headers.foldl (fun m p => dictInsertStr m (lowerStr p.1) (lowerStr p.2)) []

/-- Python `k in d` on the lowered header dict. -/
def hasKey (m : List (Str × Str)) (k : Str) : Bool :=
  (m.find? (fun p => p.1 == k)).isSome

/-- Python `d.get(k, '')`. -/
def dGet (m : List (Str × Str)) (k : Str) : Str :=
  ((m.find? (fun p => p.1 == k)).map (fun p => p.2)).getD []

/-- The apostrophe character used by the Python `str(dict)` rendering. -/
def pyQuote : Char := Char.ofNat 39

/-- Python `repr` of a short string, as it appears inside `str(dict)`. -/
def pyStrRepr (s : Str) : Str := pyQuote :: s ++ [pyQuote]

/-- Python `str` of a string-to-string dict: quoted pairs joined by a comma
and a space between curly braces. -/
def pyDictStr (m : List (Str × Str)) : Str :=
  Char.ofNat 123 ::
    (List.intercalate (", ".toList)
      (m.map (fun p => pyStrRepr p.1 ++ ": ".toList ++ pyStrRepr p.2)))
  ++ [Char.ofNat 125]

/-- `detect_from_headers` (detector.py, lines 50 to 71). -/
def detect_from_headers (headers : List (Str × Str)) : Str :=
  let hl := headersLower headers
  if hasKey hl ("x-shopify-stage".toList) || hasKey hl ("x-shopid".toList) then
    "Shopify".toList
  else if startsWith (dGet hl ("server".toList)) ("shopify".toList) then
    "Shopify".toList
  else if hasSub ("x-bc-".toList) (pyDictStr hl) then "BigCommerce".toList
  else if hasSub ("x-magento-".toList) (pyDictStr hl) then "Magento".toList
  else if hasKey hl ("x-dw-request-base-id".toList) then "Demandware".toList
  else if hasKey hl ("x-wix-request-id".toList) then "Wix".toList
  else []

/-- `detect_from_cookies` (detector.py, lines 74 to 96), over the rendered
cookie jar. -/
def detect_from_cookies (cookies : Str) : Str :=
  let cs := lowerStr cookies
  if hasSub ("woocommerce_".toList) cs || hasSub ("wp_woocommerce".toList) cs then
    "WooCommerce".toList
  else if hasSub ("_shopify_".toList) cs || hasSub ("shopify_pay".toList) cs then
    "Shopify".toList
  else if hasSub ("mage-".toList) cs || hasSub ("form_key".toList) cs then
    "Magento".toList
  else if hasSub ("prestashop".toList) cs then "PrestaShop".toList
  else if hasSub ("phpsessid".toList) cs && hasSub ("currency".toList) cs
      && hasSub ("language".toList) cs then "OpenCart".toList
  else if hasSub ("bitrix_".toList) cs then "Bitrix".toList
  else []

/-- The keyword cascade of `detect_from_meta` (detector.py, lines 99 to 139)
applied to the captured generator tag; the two `re.search` calls that extract
the tag are the external regex engine, so the capture is the input here
(None when neither pattern matched). -/
def detect_from_meta (generatorCapture : Option Str) : Str :=
  match generatorCapture with
  | none => []
  | some g0 =>
      let g := lowerStr g0
      if hasSub ("woocommerce".toList) g then "WooCommerce".toList
      else if hasSub ("shopify".toList) g then "Shopify".toList
      else if hasSub ("magento".toList) g then "Magento".toList
      else if hasSub ("prestashop".toList) g then "PrestaShop".toList
      else if hasSub ("opencart".toList) g then "OpenCart".toList
      else if hasSub ("squarespace".toList) g then "Squarespace".toList
      else if hasSub ("wix".toList) g then "Wix".toList
      else if hasSub ("weebly".toList) g then "Weebly".toList
      else if hasSub ("tilda".toList) g then "Tilda".toList
      else if hasSub ("bitrix".toList) g || hasSub ("1c-bitrix".toList) g then
        "Bitrix".toList
      else if hasSub ("shopware".toList) g then "Shopware".toList
      else if hasSub ("ecwid".toList) g then "Ecwid".toList
      else []

/-- The `PLATFORM_CHECKS` table (detector.py, lines 142 to 306): each entry
is the body of the corresponding `is_*` predicate over the lowered page text,
paired with the platform name it reports. -/
def PLATFORM_CHECKS : List ((Str → Bool) × Str) :=
  [(fun t => hasSub ("shopify".toList) t || hasSub ("cdn.shopify.com".toList) t
      || hasSub ("myshopify.com".toList) t, "Shopify".toList),
   (fun t => hasSub ("woocommerce".toList) t || hasSub ("wc-block".toList) t
      || hasSub ("/wp-content/plugins/woocommerce/".toList) t, "WooCommerce".toList),
   (fun t => hasSub ("magento".toList) t || hasSub ("/skin/frontend/".toList) t
      || hasSub ("/static/frontend/".toList) t
      || hasSub ("mage.cookies".toList) t, "Magento".toList),
   (fun t => hasSub ("bigcommerce".toList) t
      || hasSub ("cdn.bigcommerce.com".toList) t, "BigCommerce".toList),
   (fun t => hasSub ("prestashop".toList) t || hasSub ("/modules/ps_".toList) t
      || hasSub ("/themes/prestashop".toList) t
      || hasSub ("prestashop-ui-kit".toList) t
      || hasSub ("/themes/classic/assets/".toList) t
      || hasSub ("blockcart".toList) t
      || hasSub ("ps_customersignin".toList) t
      || hasSub ("ps_shoppingcart".toList) t
      || hasSub ("presta-".toList) t
      || hasSub ("/modules/productcomments/".toList) t
      || (hasSub ("id_product".toList) t
          && hasSub ("id_product_attribute".toList) t), "PrestaShop".toList),
   (fun t => hasSub ("wix.com".toList) t || hasSub ("wixsite.com".toList) t
      || hasSub ("_wix_".toList) t, "Wix".toList),
   (fun t => hasSub ("squarespace".toList) t
      || hasSub ("static.squarespace.com".toList) t, "Squarespace".toList),
   (fun t => hasSub ("bigcartel".toList) t, "BigCartel".toList),
   (fun t => hasSub ("opencart".toList) t || hasSub ("index.php?route=".toList) t
      || hasSub ("catalog/view/theme".toList) t, "OpenCart".toList),
   (fun t => hasSub ("3dcart".toList) t || hasSub ("shift4shop".toList) t,
      "3DCart".toList),
   (fun t => hasSub ("volusion".toList) t, "Volusion".toList),
   (fun t => hasSub ("demandware".toList) t || hasSub ("dwvar_".toList) t
      || hasSub ("dwfrm_".toList) t, "Demandware".toList),
   (fun t => hasSub ("sellfy".toList) t, "Sellfy".toList),
   (fun t => hasSub ("ecwid".toList) t, "Ecwid".toList),
   (fun t => hasSub ("weebly".toList) t || hasSub ("editmysite.com".toList) t,
      "Weebly".toList),
   (fun t => hasSub ("salesforce".toList) t && hasSub ("commerce".toList) t,
      "SalesforceCommerce".toList),
   (fun t => hasSub ("vtex".toList) t, "VTEX".toList),
   (fun t => hasSub ("shopware".toList) t, "Shopware".toList),
   (fun t => hasSub ("nopcommerce".toList) t, "nopCommerce".toList),
   (fun t => hasSub ("lightspeed".toList) t || hasSub ("seoshop".toList) t,
      "Lightspeed".toList),
   (fun t => hasSub ("tilda".toList) t || hasSub ("tildacdn".toList) t,
      "Tilda".toList),
   (fun t => hasSub ("bitrix".toList) t || hasSub ("1c-bitrix".toList) t,
      "Bitrix".toList),
   (fun t => hasSub ("insales".toList) t, "InSales".toList),
   (fun t => hasSub ("cs-cart".toList) t || hasSub ("cscart".toList) t,
      "CS-Cart".toList)]

/-- `detect_platform` (detector.py, lines 309 to 320): the first check in
`PLATFORM_CHECKS` accepting the lowered text names the platform. -/
def detect_platform (text : Str) : Str :=
  let tl := lowerStr text
  match PLATFORM_CHECKS.find? (fun p => p.1 tl) with
  | some p => p.2
  | none => []

/-- The result dict of `check_domain`, with its four keys. -/
structure CheckResult where
  domain : Str
  platform : Str
  status_code : Nat
  error : Str
deriving DecidableEq, Repr

/-- `check_domain` (detector.py, lines 323 to 358).  `gmatch` is the external
regex engine behind `detect_from_meta`, extracting the generator capture from
the page HTML.  An outcome other than success yields the early error dict;
on success the header → cookie → HTML → meta cascade fills `platform`. -/
def check_domain (domain : Str) (gmatch : Str → Option Str)
    (outcome : FetchOutcome) : CheckResult :=
  match fetch_url outcome with
  | (none, error) => ⟨domain, [], 0, error⟩
  | (some r, _) =>
      let html_text := r.text
      let platform := detect_from_headers r.headers
      let platform := if platform.isEmpty then detect_from_cookies r.cookies else platform
      let platform := if platform.isEmpty then detect_platform html_text else platform
      let platform := if platform.isEmpty then detect_from_meta (gmatch html_text) else platform
      ⟨domain, platform, r.status_code, []⟩

/-- Discriminates the failure outcomes of `fetch_url`. -/
def isFailure (o : FetchOutcome) : Bool :=
  match o with
  | .success _ => false
  | _ => true

end Detector

namespace V2

/-- The projection of `collect_tld` (crawler_v2.py, lines 224 to 238) that
the resume logic determines.  `cp` is the optional checkpoint manager with
its `tld_progress` and `domains` tables.  When the partition has a progress
row with the completed flag set, the function returns the recorded
`domains_found` at once, before any upstream fetching.  Otherwise the rest of
the function runs: it is abstracted as `rest`, a function from the domain
keys preseeded into `local_seen` (None when no checkpoint manager exists) to
the pair of the domains-found result and the number of upstream index items
it scanned.  The model returns that scan count so that *scans no input* is a
statement about the result. -/
def collect_tld (tld : Str)
    (cp : Option (Checkpoint.TldProgressTable × Checkpoint.DomainsTable))
    (rest : Option (List Str) → Nat × Nat) : (Str × Nat) × Nat :=
  match cp with
  | some (progressTbl, domainsTbl) =>
      match Checkpoint.get_tld_progress progressTbl tld with
      | some p =>
          if p.completed then ((tld, p.domains_found), 0)
          else
            let r := rest (some (Checkpoint.get_domains_for_tld domainsTbl tld))
            ((tld, r.1), r.2)
      | none =>
          let r := rest (some (Checkpoint.get_domains_for_tld domainsTbl tld))
          ((tld, r.1), r.2)
  | none =>
      let r := rest none
      ((tld, r.1), r.2)

end V2

/-! Theorems for the individual claims. -/

open Checkpoint

/-- C5: `should_save()` returns true exactly when at least
`save_interval_domains` (default 1000) domains were saved since the last
flush or at least `save_interval_seconds` (default 60) seconds of wall-clock
time elapsed since the last flush, and `commit()` establishes a new flush
point by zeroing the domain counter and setting the last-flush time to now. -/
theorem c5_flush_pacing (st : FlushState) (now : ℚ) :
    (should_save st now = true ↔
      st.save_interval_domains ≤ st.domains_since_save ∨
      (st.save_interval_seconds : ℚ) ≤ now - st.last_save_time) ∧
    (commit st now).domains_since_save = 0 ∧
    (commit st now).last_save_time = now ∧
    (initFlushState now).save_interval_domains = 1000 ∧
    (initFlushState now).save_interval_seconds = 60 := by
  refine ⟨?_, rfl, rfl, rfl, rfl⟩
  simp [should_save]

/-- C10: `close()` is idempotent: the first call flushes the pending writes,
clears the connection handle, and a call on an already-closed manager leaves
the state untouched (and, being a total function, does not raise). -/
theorem c10_close_idempotent (s : ConnState) :
    close (close s) = close s ∧
    (close s).conn = none ∧
    (close s).disk = s.disk ++ pendingOf s ∧
    (s.conn = none → close s = s) := by
  cases h : s.conn <;> simp [close, pendingOf, h]

/-- Witness for C10 at a concrete open manager with one pending write. -/
theorem c10_witness :
    close (close ⟨some ⟨[], ["w".toList]⟩, []⟩) = close ⟨some ⟨[], ["w".toList]⟩, []⟩ :=
  (c10_close_idempotent ⟨some ⟨[], ["w".toList]⟩, []⟩).1

/-- A concrete stats snapshot for the C3 counterexample. -/
def c3snap : Stats :=
  ⟨7, 6, 5, 4, 3, 2, 100, [("cl".toList, 6)], [("Shopify".toList, 1)], []⟩

/-- A concrete fresh Stats object (its own `start_time` is 5) for C3. -/
def c3fresh : Stats := ⟨0, 0, 0, 0, 0, 0, 5, [], [], []⟩

/-- C3 counterexample: `load_stats` never assigns `start_time` (column 6 of
the row is skipped), so the round-trip does not restore it: saving a snapshot
with `start_time = 100` and loading into a fresh Stats with `start_time = 5`
leaves 5, while the claim requires 100. -/
theorem c3_counterexample :
    (load_stats (save_stats c3snap none) c3fresh).1.start_time = 5 ∧
    c3snap.start_time = 100 ∧ ((5 : ℚ) ≠ 100) := by
  refine ⟨rfl, rfl, by norm_num⟩

/-- C3 (amended): the save/load round-trip returns True and restores the nine
fields `total_urls, total_domains, ecommerce_count, skipped, live_checked,
live_detected, domains_by_tld, cms_counts, live_platforms` verbatim, but
`start_time` keeps the target objects own value. -/
theorem c3_stats_restore (s t : Stats) (db : Option StatsRow) :
    (load_stats (save_stats s db) t).2 = true ∧
    (load_stats (save_stats s db) t).1.total_urls = s.total_urls ∧
    (load_stats (save_stats s db) t).1.total_domains = s.total_domains ∧
    (load_stats (save_stats s db) t).1.ecommerce_count = s.ecommerce_count ∧
    (load_stats (save_stats s db) t).1.skipped = s.skipped ∧
    (load_stats (save_stats s db) t).1.live_checked = s.live_checked ∧
    (load_stats (save_stats s db) t).1.live_detected = s.live_detected ∧
    (load_stats (save_stats s db) t).1.domains_by_tld = s.domains_by_tld ∧
    (load_stats (save_stats s db) t).1.cms_counts = s.cms_counts ∧
    (load_stats (save_stats s db) t).1.live_platforms = s.live_platforms ∧
    (load_stats (save_stats s db) t).1.start_time = t.start_time := by
  simp [load_stats, save_stats]

/-- C4: a partition whose `tld_progress` row is completed makes `collect_tld`
return the recorded `domains_found` immediately with zero input scanned
(independently of the rest of the scan), and `get_completed_tlds` is exactly
the set of tlds with a completed progress row. -/
theorem c4_completed_resume (tld : Str) (ptbl : TldProgressTable)
    (dtbl : DomainsTable) (p : TldProgressRow)
    (rest : Option (List Str) → Nat × Nat)
    (hp : get_tld_progress ptbl tld = some p)
    (hc : p.completed = true) :
    V2.collect_tld tld (some (ptbl, dtbl)) rest = ((tld, p.domains_found), 0) ∧
    (∀ t : Str, t ∈ get_completed_tlds ptbl ↔
      ∃ r ∈ ptbl, r.tld = t ∧ r.completed = true) := by
  constructor
  · simp [V2.collect_tld, hp, hc]
  · intro t
    simp only [get_completed_tlds, List.mem_map, List.mem_filter]
    constructor
    · rintro ⟨r, ⟨hr, hcr⟩, ht⟩
      exact ⟨r, hr, ht, hcr⟩
    · rintro ⟨r, hr, ht, hcr⟩
      exact ⟨r, ⟨hr, hcr⟩, ht⟩

/-- The progress table used by the C4 witness. -/
def c4ptbl : TldProgressTable :=
  [⟨"cl".toList, 10, 7, true, "u".toList, "ts".toList⟩]

/-- Witness for C4: on a table where `.cl` is completed with 7 domains found,
the scan returns 7 immediately and consumes no input, whatever the rest of
the function would have scanned. -/
theorem c4_witness :
    V2.collect_tld ("cl".toList) (some (c4ptbl, [])) (fun _ => (99, 99))
      = (("cl".toList, 7), 0) :=
  (c4_completed_resume ("cl".toList) c4ptbl []
    ⟨"cl".toList, 10, 7, true, "u".toList, "ts".toList⟩
    (fun _ => (99, 99)) (by decide) rfl).1

open Detector in
/-- C7: `check_domain` is total (it never raises: every fetch outcome maps to
a result record with the four fields `domain, platform, status_code, error`),
a failed fetch yields `status_code = 0`, empty platform and a non-empty error
message, and a successful fetch yields an empty error and the responses
status code. -/
theorem c7_check_domain_contract (domain : Str) (gmatch : Str → Option Str)
    (outcome : FetchOutcome) :
    (check_domain domain gmatch outcome).domain = domain ∧
    (isFailure outcome = true →
      (check_domain domain gmatch outcome).status_code = 0 ∧
      (check_domain domain gmatch outcome).platform = [] ∧
      (check_domain domain gmatch outcome).error ≠ []) ∧
    (∀ r, outcome = FetchOutcome.success r →
      (check_domain domain gmatch outcome).error = [] ∧
      (check_domain domain gmatch outcome).status_code = r.status_code) := by
  cases outcome <;>
    simp [check_domain, fetch_url, isFailure]

/-- Witness for C7 at the timeout outcome: status code 0 comes back. -/
theorem c7_witness :
    (Detector.check_domain ("shop.test".toList) (fun _ => none)
      Detector.FetchOutcome.timedOut).status_code = 0 :=
  ((c7_check_domain_contract ("shop.test".toList) (fun _ => none)
    Detector.FetchOutcome.timedOut).2.1 rfl).1

/-- An upsert whose domain hits the single existing row takes the
`ON CONFLICT` branch. -/
lemma save_domain_conflict_single (r0 : DomainRow) (u : SaveArgs)
    (h : u.domain = r0.domain) :
    save_domain [r0] u = [conflictUpdate r0 u] := by
  simp [save_domain, findDomain, h]

/-- Folding a sequence of upserts that all target the domain of the single
existing row keeps a single row and folds each merged field. -/
lemma foldl_save_single (us : List SaveArgs) (r0 : DomainRow)
    (h : ∀ u ∈ us, u.domain = r0.domain) :
    us.foldl save_domain [r0] =
      [⟨r0.domain, r0.tld, r0.country,
        us.foldl (fun m u => max m (boolToFlag u.is_ecommerce)) r0.is_ecommerce,
        us.foldl (fun c u => if cmsOrEmpty u.cms ≠ [] then cmsOrEmpty u.cms else c) r0.cms,
        r0.timestamp, r0.language, r0.url_count + us.length⟩] := by
  induction us generalizing r0 with
  | nil => simp
  | cons u rest ih =>
      rw [List.foldl_cons, save_domain_conflict_single r0 u (h u (by simp))]
      rw [ih (conflictUpdate r0 u) (fun v hv => h v (by simp [hv]))]
      simp only [conflictUpdate, List.foldl_cons, List.length_cons]
      congr 2
      omega

/-- The first upsert into an empty table inserts the carried row. -/
lemma save_domain_empty (u : SaveArgs) :
    save_domain [] u = [insertedRow u] := by
  simp [save_domain, findDomain]

/-- The cms-merge fold started from the empty string absorbs its first step. -/
lemma cms_fold_head (u : SaveArgs) :
    (if cmsOrEmpty u.cms ≠ [] then cmsOrEmpty u.cms else []) = cmsOrEmpty u.cms := by
  by_cases hc : cmsOrEmpty u.cms = [] <;> simp [hc]

/-- `orFlags` over a cons is the max of the head flag and the tail `orFlags`. -/
lemma orFlags_cons (u : SaveArgs) (rest : List SaveArgs) :
    orFlags (u :: rest) = max (boolToFlag u.is_ecommerce) (orFlags rest) := by
  cases hu : u.is_ecommerce <;>
    cases hr : rest.any (fun v => v.is_ecommerce) <;>
      simp [orFlags, boolToFlag, hu, hr]

/-- The running max over the flags computes `orFlags`. -/
lemma flags_foldl_max (us : List SaveArgs) (b : Nat) :
    us.foldl (fun m u => max m (boolToFlag u.is_ecommerce)) b = max b (orFlags us) := by
  induction us generalizing b with
  | nil => simp [orFlags]
  | cons u rest ih =>
      rw [List.foldl_cons, ih, orFlags_cons]
      omega

/-- C1 (amended): across any nonempty sequence of `save_domain` upserts for
one domain, the table holds exactly one row; its stored `is_ecommerce` is the
OR of all submitted flags (never downgraded), and its stored cms is the LAST
non-empty value submitted — an empty value never overwrites a known value,
but a later non-empty value does replace an earlier one. -/
theorem c1_domain_merge (d : Str) (us : List SaveArgs) (hne : us ≠ [])
    (hd : ∀ u ∈ us, u.domain = d) :
    ∃ r : DomainRow, us.foldl save_domain [] = [r] ∧ r.domain = d ∧
      r.is_ecommerce = orFlags us ∧ r.cms = lastNonEmptyCms us := by
  match us, hne with
  | u :: rest, _ =>
    rw [List.foldl_cons, save_domain_empty u]
    rw [foldl_save_single rest (insertedRow u)
      (fun v hv => by
        have h1 := hd v (by simp [hv])
        have h2 := hd u (by simp)
        simp [insertedRow, h1, h2])]
    refine ⟨_, rfl, ?_, ?_, ?_⟩
    · simpa [insertedRow] using hd u (by simp)
    · show rest.foldl _ (insertedRow u).is_ecommerce = _
      rw [show (insertedRow u).is_ecommerce = boolToFlag u.is_ecommerce from rfl]
      rw [flags_foldl_max, orFlags_cons]
    · show rest.foldl _ (insertedRow u).cms = _
      rw [show (insertedRow u).cms = cmsOrEmpty u.cms from rfl]
      rw [lastNonEmptyCms, List.foldl_cons, cms_fold_head]

/-- First C1 counterexample upsert: platform "A". -/
def c1u1 : SaveArgs :=
  ⟨"d".toList, "cl".toList, "Chile".toList, false, some ("A".toList),
   "t".toList, "es".toList, 1⟩

/-- Second C1 counterexample upsert: platform "B". -/
def c1u2 : SaveArgs := { c1u1 with cms := some ("B".toList) }

/-- C1 counterexample: the claim says the first non-empty cms value wins and
a later non-empty value never replaces it, but
`cms = COALESCE(NULLIF(excluded.cms, ''), cms)` overwrites with every
non-empty submission: after submitting "A" then "B" the stored value is "B",
not the first non-empty value "A". -/
theorem c1_counterexample :
    (findDomain ([c1u1, c1u2].foldl save_domain []) ("d".toList)).map
        (fun r => r.cms) = some ("B".toList) ∧
    firstNonEmptyCms [c1u1, c1u2] = "A".toList ∧
    ("B".toList : Str) ≠ ("A".toList : Str) := by
  decide

/-- Witness for C1 at the update sequence named by the claim:
(false, empty), (true, "Shopify"), (false, empty) ends with the flag set and
cms "Shopify". -/
theorem c1_witness :
    ([(⟨"d".toList, [], [], false, none, [], [], 1⟩ : SaveArgs),
      ⟨"d".toList, [], [], true, some ("Shopify".toList), [], [], 1⟩,
      ⟨"d".toList, [], [], false, none, [], [], 1⟩].foldl save_domain []).map
        (fun r => (r.is_ecommerce, r.cms)) = [(1, "Shopify".toList)] := by
  obtain ⟨r, h1, _, h3, h4⟩ :=
    c1_domain_merge ("d".toList)
      [⟨"d".toList, [], [], false, none, [], [], 1⟩,
       ⟨"d".toList, [], [], true, some ("Shopify".toList), [], [], 1⟩,
       ⟨"d".toList, [], [], false, none, [], [], 1⟩]
      (by decide) (by decide)
  rw [h1]
  simp only [List.map_cons, List.map_nil, h3, h4]
  decide

/-- An upsert whose domain is absent from the table appends a fresh row. -/
lemma save_domain_fresh (tbl : DomainsTable) (a : SaveArgs)
    (h : a.domain ∉ tbl.map (fun r => r.domain)) :
    save_domain tbl a = tbl ++ [insertedRow a] := by
  have hf : findDomain tbl a.domain = none := by
    rw [findDomain, List.find?_eq_none]
    intro r hr
    simp only [beq_iff_eq]
    intro hcontra
    exact h (List.mem_map.mpr ⟨r, hr, hcontra⟩)
  simp [save_domain, hf]

/-- Flushing a batch whose domains are fresh and pairwise distinct appends
one inserted row per batch item, in order. -/
lemma foldl_save_fresh (batch : List SaveArgs) (tbl : DomainsTable)
    (h : (tbl.map (fun r => r.domain) ++ batch.map (fun a => a.domain)).Nodup) :
    batch.foldl save_domain tbl = tbl ++ batch.map insertedRow := by
  induction batch generalizing tbl with
  | nil => simp
  | cons a rest ih =>
      rw [List.map_cons] at h
      have ha : a.domain ∉ tbl.map (fun r => r.domain) := by
        intro hmem
        rcases List.nodup_append.mp h with ⟨_, _, hdisj⟩
        exact hdisj hmem (by simp)
      rw [List.foldl_cons, save_domain_fresh tbl a ha, ih (tbl ++ [insertedRow a])]
      · simp
      · simpa [insertedRow] using h

/-- The dedup invariant of the chunk pipeline: the checkpointed rows plus the
staged batch items are, in order, exactly the reversed `seen` set; `seen`
never holds a domain twice; and every persisted or staged record carries
`url_count = 1`. -/
def PipeInv (st : Disk.PipeState) : Prop :=
  st.table.map (fun r => r.domain) ++ st.batch.map (fun a => a.domain)
      = st.seen.reverse ∧
  st.seen.Nodup ∧
  (∀ r ∈ st.table, r.url_count = 1) ∧
  (∀ a ∈ st.batch, a.url_count = 1)

/-- Flushing the batch through `save_domain` preserves the dedup invariant. -/
lemma flushBatch_inv (st : Disk.PipeState) (h : PipeInv st) :
    PipeInv (Disk.flushBatch st) := by
  obtain ⟨h1, h2, h3, h4⟩ := h
  have hnd : (st.table.map (fun r => r.domain)
      ++ st.batch.map (fun a => a.domain)).Nodup := by
    rw [h1]; exact List.nodup_reverse.mpr h2
  refine ⟨?_, h2, ?_, ?_⟩
  · simp only [Disk.flushBatch, foldl_save_fresh st.batch st.table hnd]
    simpa [insertedRow, Function.comp] using h1
  · simp only [Disk.flushBatch, foldl_save_fresh st.batch st.table hnd]
    intro r hr
    rcases List.mem_append.mp hr with hl | hl
    · exact h3 r hl
    · rcases List.mem_map.mp hl with ⟨a, hal, rfl⟩
      exact h4 a hal
  · intro a ha
    simp [Disk.flushBatch] at ha

/-- Accepting a freshly seen domain preserves the dedup invariant. -/
lemma acceptDomain_inv (st : Disk.PipeState) (tld domain : Str)
    (line : Disk.ChunkLine) (data : Disk.CdxData)
    (hnotin : domain ∉ st.seen) (h : PipeInv st) :
    PipeInv (Disk.acceptDomain { st with seen := domain :: st.seen }
      tld domain line data) := by
  obtain ⟨h1, h2, h3, h4⟩ := h
  rw [Disk.acceptDomain]
  simp only [Disk.statsAdd]
  have hmid : PipeInv
      { st with
        seen := domain :: st.seen,
        totalDomains := st.totalDomains + 1,
        domainsByTld := Disk.bumpCount st.domainsByTld tld,
        ecommerceCount := if Disk.ECOMMERCE_KW.any
            (fun k => hasSub k (lowerStr data.url)) = true
          then st.ecommerceCount + 1 else st.ecommerceCount,
        counts := Disk.bumpCount st.counts tld,
        liveQueue := st.liveQueue.map (fun q => q ++ [domain]),
        batch := st.batch ++
          [⟨domain, tld, Disk.dictGet Disk.TLD_COUNTRIES tld ("Unknown".toList),
            Disk.ECOMMERCE_KW.any (fun k => hasSub k (lowerStr data.url)),
            some [], line.timestamp, data.languages, 1⟩] } := by
    refine ⟨?_, List.nodup_cons.mpr ⟨hnotin, h2⟩, h3, ?_⟩
    · simp only [List.map_append, List.map_cons, List.map_nil, List.reverse_cons,
        ← List.append_assoc, h1]
    · intro a ha
      rcases List.mem_append.mp ha with hl | hl
      · exact h4 a hl
      · simp only [List.mem_singleton] at hl
        subst hl
        rfl
  split
  · exact flushBatch_inv _ hmid
  · exact hmid

/-- One pipeline line preserves the dedup invariant. -/
lemma processLine_inv (tldPre : List (Str × Str)) (limit : Nat)
    (st : Disk.PipeState) (line : Disk.ChunkLine) (h : PipeInv st) :
    PipeInv (Disk.processLine tldPre limit st line) := by
  rw [Disk.processLine]
  split
  · exact h
  · split
    · exact h
    · split
      · exact h
      · split
        · exact h
        · split
          · exact h
          · split
            · exact h
            · split
              · exact h
              · split
                · exact h
                · rename_i hnotin
                  exact acceptDomain_inv st _ _ line _ (by simpa using hnotin) h

/-- A full chunk preserves the dedup invariant. -/
lemma process_chunk_from_disk_inv (tldPre : List (Str × Str)) (limit : Nat)
    (lines : List Disk.ChunkLine) (st : Disk.PipeState) (h : PipeInv st) :
    PipeInv (Disk.process_chunk_from_disk tldPre limit lines st) := by
  rw [Disk.process_chunk_from_disk]
  have hfold : PipeInv (lines.foldl (Disk.processLine tldPre limit) st) := by
    induction lines generalizing st with
    | nil => exact h
    | cons l rest ih => exact ih _ (processLine_inv tldPre limit st l h)
  split
  · exact hfold
  · exact flushBatch_inv _ hfold

/-- The initial pipeline state of a run: empty dedup set, empty table, empty
batch (the per-TLD counter and per-chunk counter maps and the optional live
queue are arbitrary). -/
def initPipe (dbt counts : List (Str × Nat)) (lq : Option (List Str)) :
    Disk.PipeState :=
  ⟨[], dbt, 0, 0, [], [], counts, lq⟩

/-- C2 (amended): processing any chunk input from a fresh run state accepts
each domain at most once — after the chunk completes the batch is fully
flushed, the persisted rows are in bijection with the dedup set `seen` (one
row per accepted domain, in acceptance order), `seen` holds no duplicates,
and every rows `url_count` equals 1: repeats of a domain beyond its first
acceptance are dropped at the dedup gate before any counter is touched, so
`url_count` stays 1 rather than tracking the number of occurrences N. -/
theorem c2_dedup_once (tldPre : List (Str × Str)) (limit : Nat)
    (lines : List Disk.ChunkLine) (dbt counts : List (Str × Nat))
    (lq : Option (List Str)) :
    (Disk.process_chunk_from_disk tldPre limit lines
        (initPipe dbt counts lq)).batch = [] ∧
    (Disk.process_chunk_from_disk tldPre limit lines
        (initPipe dbt counts lq)).table.map (fun r => r.domain)
      = (Disk.process_chunk_from_disk tldPre limit lines
        (initPipe dbt counts lq)).seen.reverse ∧
    (Disk.process_chunk_from_disk tldPre limit lines
        (initPipe dbt counts lq)).seen.Nodup ∧
    (∀ r ∈ (Disk.process_chunk_from_disk tldPre limit lines
        (initPipe dbt counts lq)).table, r.url_count = 1) := by
  have hinit : PipeInv (initPipe dbt counts lq) := by
    refine ⟨rfl, List.nodup_nil, ?_, ?_⟩ <;> intro x hx <;> simp [initPipe] at hx
  have hinv := process_chunk_from_disk_inv tldPre limit lines _ hinit
  have hb : (Disk.process_chunk_from_disk tldPre limit lines
      (initPipe dbt counts lq)).batch = [] := by
    rw [Disk.process_chunk_from_disk]
    split
    · rename_i hemp
      exact List.isEmpty_iff.mp (by simpa using hemp)
    · rfl
  obtain ⟨h1, h2, h3, _⟩ := hinv
  rw [hb] at h1
  exact ⟨hb, by simpa using h1, h2, h3⟩

/-- Witness for C2 at a one-line chunk: the dedup set ends duplicate free. -/
theorem c2_witness :
    (Disk.process_chunk_from_disk [("test,".toList, "test".toList)] 100 []
      (initPipe [] [] none)).seen.Nodup :=
  (c2_dedup_once [("test,".toList, "test".toList)] 100 [] [] [] none).2.2.1

/-- The CDX payload of the C2 counterexample line: a 200 HTML page on
shop.test with a cart URL. -/
def c2data : Disk.CdxData :=
  ⟨"200".toList, "text/html".toList, "http://shop.test/cart".toList, "en".toList⟩

/-- The C2 counterexample chunk line for partition `test`. -/
def c2line : Disk.ChunkLine := ⟨"test,shop".toList, "20240101".toList, some c2data⟩

/-- C2 counterexample: a chunk in which the same domain passes all filters
twice (N = 2) yields one row whose `url_count` is 1, not 2 — the second
occurrence is dropped at the dedup gate and no counter is incremented. -/
theorem c2_counterexample :
    ((Disk.process_chunk_from_disk [("test,".toList, "test".toList)] 100
        [c2line, c2line]
        (initPipe [("test".toList, 0)] [("test".toList, 0)] none)).table.map
      (fun r => (r.domain, r.url_count)))
      = [("shop.test".toList, 1)] ∧ (1 : Nat) ≠ 2 := by
  decide

/-- Semaphore safety: no reachable state has more slot holders than the
configured capacity. -/
lemma cache_holding_bound (cap n : Nat) (s : Disk.CacheSys)
    (h : Disk.CacheReachable cap n s) : s.holding ≤ cap := by
  induction h with
  | refl => simp [Disk.cacheInit, Disk.CacheSys.holding]
  | tail _ step ih =>
      cases step <;> simp [Disk.CacheSys.holding] at * <;> omega

/-- C6: the `finally` block of `process_chunk` guarantees the chunk file is
gone when the call returns — after a successful run and after an exception in
the download or in the line processing alike (for an irrelevant chunk no file
is ever created) — and consequently, in any interleaving of workers gated by
the cache-size semaphore, the number of chunk files simultaneously on disk
never exceeds the configured cache-size capacity. -/
theorem c6_cleanup_and_cache_bound :
    (∀ (cid : Nat) (dl : Disk.DownloadOutcome) (body : Disk.BodyOutcome)
        (disk : Disk.DiskDir),
      Disk.hasFile (Disk.process_chunk cid true dl body disk).1 cid = false) ∧
    (∀ (cid : Nat) (rel : Bool) (dl : Disk.DownloadOutcome)
        (body : Disk.BodyOutcome) (disk : Disk.DiskDir),
      Disk.hasFile disk cid = false →
      Disk.hasFile (Disk.process_chunk cid rel dl body disk).1 cid = false) ∧
    (∀ (cap n : Nat) (s : Disk.CacheSys),
      Disk.CacheReachable cap n s → s.filesOnDisk ≤ cap) := by
  refine ⟨?_, ?_, ?_⟩
  · intro cid dl body disk
    cases dl <;>
      simp [Disk.process_chunk, Disk.hasFile, Disk.removeFile, Disk.addFile] <;>
      split <;>
      simp_all [List.mem_filter]
  · intro cid rel dl body disk habs
    cases rel
    · simpa [Disk.process_chunk] using habs
    · cases dl <;>
        simp_all [Disk.process_chunk, Disk.hasFile, Disk.removeFile,
          Disk.addFile, List.mem_filter]
  · intro cap n s h
    have hb := cache_holding_bound cap n s h
    simp only [Disk.CacheSys.filesOnDisk]
    simp only [Disk.CacheSys.holding] at hb
    omega

/-- Witness for C6: with one worker and capacity one, the initial state is
reachable and holds no file on disk. -/
theorem c6_witness : (Disk.cacheInit 1).filesOnDisk ≤ 1 :=
  c6_cleanup_and_cache_bound.2.2 1 1 (Disk.cacheInit 1) Relation.ReflTransGen.refl

/-- The inductive invariant of the live-check stage: an exited worker implies
the crawl was flagged done; a sentinel can only sit in an all-sentinel queue
of a done crawl; the enqueued domains are exactly the processed ones followed
by those still queued; and an exited worker leaves no real item queued. -/
def LiveInv (s : Disk.LiveSys) : Prop :=
  (s.exited = true → s.done = true) ∧
  ((none : Option Str) ∈ s.queue → s.done = true ∧ s.queue.filterMap id = []) ∧
  s.enqueued = s.processed ++ s.queue.filterMap id ∧
  (s.exited = true → s.queue.filterMap id = [])

/-- Every protocol step preserves the live-check invariant. -/
lemma live_inv_step (s s2 : Disk.LiveSys) (hstep : Disk.LiveStep s s2)
    (h : LiveInv s) : LiveInv s2 := by
  obtain ⟨h1, h2, h3, h4⟩ := h
  cases hstep with
  | enqueue d hdone =>
      refine ⟨?_, ?_, ?_, ?_⟩
      · intro hex
        exact absurd (h1 hex) (by simp [hdone])
      · intro hm
        rcases List.mem_append.mp hm with hl | hl
        · exact absurd (h2 hl).1 (by simp [hdone])
        · simp at hl
      · simp [List.filterMap_append, h3]
      · intro hex
        exact absurd (h1 hex) (by simp [hdone])
  | pushSentinel hdone hfm =>
      refine ⟨fun _ => hdone, ?_, ?_, ?_⟩
      · intro _
        exact ⟨hdone, by simp [List.filterMap_append, hfm]⟩
      · simp [List.filterMap_append, h3, hfm]
      · intro hex
        simp [List.filterMap_append, hfm]
  | setDone =>
      exact ⟨fun _ => rfl, fun hm => ⟨rfl, (h2 hm).2⟩, h3, h4⟩
  | getItem d rest hex hq =>
      refine ⟨?_, ?_, ?_, ?_⟩
      · intro hx
        exact absurd hx (by simp [hex])
      · intro hm
        have h5 := h2 (by rw [hq]; exact List.mem_cons_of_mem _ hm)
        rw [hq] at h5
        simp at h5
      · rw [hq] at h3
        simpa using h3
      · intro hx
        exact absurd hx (by simp [hex])
  | getSentinel rest hex hq =>
      have h5 := h2 (by rw [hq]; exact List.mem_cons_self _ _)
      rw [hq] at h5
      simp only [List.filterMap_cons_none, id] at h5
      refine ⟨fun _ => h5.1, fun _ => h5, ?_, fun _ => h5.2⟩
      rw [hq] at h3
      simpa using h3
  | timeoutExit hex hdone hq =>
      refine ⟨fun _ => hdone, h2, h3, ?_⟩
      intro _
      rw [hq]
      rfl

/-- The live-check invariant holds in every reachable state. -/
lemma live_inv_reachable (s : Disk.LiveSys) (h : Disk.LiveReachable s) :
    LiveInv s := by
  induction h with
  | refl => refine ⟨?_, ?_, ?_, ?_⟩ <;> simp [Disk.liveInit]
  | tail _ step ih => exact live_inv_step _ _ step ih

/-- C8: a live-check worker leaves its consume loop only by dequeuing the
None sentinel or from the empty-queue timeout with the crawl-done flag set
and the queue empty — never while the flag is unset or items remain — and
under the shutdown protocol of `main` every enqueued domain has been dequeued
and processed by the time the worker has exited. -/
theorem c8_live_worker_drain :
    (∀ s s2 : Disk.LiveSys, Disk.LiveStep s s2 →
      s.exited = false → s2.exited = true →
      (∃ rest, s.queue = none :: rest) ∨ (s.done = true ∧ s.queue = [])) ∧
    (∀ s : Disk.LiveSys, Disk.LiveReachable s → s.exited = true →
      s.processed = s.enqueued) := by
  constructor
  · intro s s2 hstep hex hex2
    cases hstep with
    | enqueue d hdone => simp [hex] at hex2
    | pushSentinel hdone hfm => simp [hex] at hex2
    | setDone => simp [hex] at hex2
    | getItem d rest hx hq => simp [hex] at hex2
    | getSentinel rest hx hq => exact Or.inl ⟨rest, hq⟩
    | timeoutExit hx hdone hq => exact Or.inr ⟨hdone, hq⟩
  · intro s hreach hex
    obtain ⟨_, _, h3, h4⟩ := live_inv_reachable s hreach
    rw [h3, h4 hex, List.append_nil]

/-- Witness for C8: the worker that observes the done flag on an empty queue
exits having processed exactly the enqueued domains (here none). -/
theorem c8_witness :
    (⟨[], true, [], [], true⟩ : Disk.LiveSys).processed
      = (⟨[], true, [], [], true⟩ : Disk.LiveSys).enqueued :=
  c8_live_worker_drain.2 ⟨[], true, [], [], true⟩
    (Relation.ReflTransGen.tail
      (Relation.ReflTransGen.tail Relation.ReflTransGen.refl
        (Disk.LiveStep.setDone Disk.liveInit))
      (Disk.LiveStep.timeoutExit ⟨[], true, [], [], false⟩ rfl rfl rfl))
    rfl

/-- Membership in a Python set after an insertion. -/
lemma mem_setInsert (l : List Nat) (c x : Nat) :
    x ∈ Disk.setInsert l c ↔ x ∈ l ∨ x = c := by
  rw [Disk.setInsert]
  split
  · rename_i h
    constructor
    · exact Or.inl
    · rintro (hx | rfl)
      · exact hx
      · exact h
  · simp

/-- Set insertion keeps the backing list duplicate free. -/
lemma nodup_setInsert (l : List Nat) (c : Nat) (h : l.Nodup) :
    (Disk.setInsert l c).Nodup := by
  rw [Disk.setInsert]
  split
  · exact h
  · rename_i hc
    refine List.nodup_append.mpr ⟨h, List.nodup_singleton c, fun a ha hb => ?_⟩
    simp only [List.mem_singleton] at hb
    subst hb
    exact hc ha

/-- Membership after folding set insertions. -/
lemma mem_foldl_setInsert (s acc : List Nat) (x : Nat) :
    x ∈ s.foldl Disk.setInsert acc ↔ x ∈ acc ∨ x ∈ s := by
  induction s generalizing acc with
  | nil => simp
  | cons a rest ih =>
      rw [List.foldl_cons, ih, mem_setInsert]
      simp [List.mem_cons, or_assoc, eq_comm]

/-- Folding set insertions keeps the accumulator duplicate free. -/
lemma nodup_foldl_setInsert (s acc : List Nat) (h : acc.Nodup) :
    (s.foldl Disk.setInsert acc).Nodup := by
  induction s generalizing acc with
  | nil => exact h
  | cons a rest ih => exact ih _ (nodup_setInsert _ _ h)

/-- Reading an empty chunk map. -/
lemma mapGet_nil (t : Str) : Disk.mapGet [] t = [] := rfl

/-- Reading a chunk map through its head entry. -/
lemma mapGet_cons (p : Str × List Nat) (rest : List (Str × List Nat)) (t2 : Str) :
    Disk.mapGet (p :: rest) t2 = if p.1 = t2 then p.2 else Disk.mapGet rest t2 := by
  by_cases h : p.1 = t2
  · rw [Disk.mapGet, List.find?_cons_of_pos _ (by simpa using h), if_pos h]
    rfl
  · rw [Disk.mapGet, List.find?_cons_of_neg _ (by simpa using h), if_neg h]
    rfl

/-- Reading the chunk map after recording one chunk id. -/
lemma mapGet_mapAdd (m : List (Str × List Nat)) (t t2 : Str) (c : Nat) :
    Disk.mapGet (Disk.mapAdd m t c) t2 =
      if t2 = t then Disk.setInsert (Disk.mapGet m t) c else Disk.mapGet m t2 := by
  induction m with
  | nil =>
      rw [Disk.mapAdd, mapGet_cons]
      by_cases h : t2 = t
      · subst h
        rw [if_pos rfl, if_pos rfl, mapGet_nil]
        simp [Disk.setInsert]
      · rw [if_neg (fun hc => h hc.symm), if_neg h]
  | cons p rest ih =>
      rw [Disk.mapAdd]
      by_cases hp : p.1 = t
      · rw [if_pos hp, mapGet_cons, mapGet_cons, mapGet_cons]
        by_cases h2 : t2 = t
        · subst h2
          rw [if_pos hp, if_pos rfl, if_pos hp]
        · have hne : ¬p.1 = t2 := fun hc => h2 (by rw [← hc, hp])
          rw [if_neg hne, if_neg h2, if_neg hne]
      · rw [if_neg hp, mapGet_cons, mapGet_cons, mapGet_cons, ih, if_neg hp]
        by_cases hq : p.1 = t2
        · have h2 : ¬t2 = t := fun hc => hp (by rw [hq, hc])
          rw [if_pos hq, if_neg h2, if_pos hq]
        · rw [if_neg hq, if_neg hq]

/-- Membership in a per-tld chunk set after scanning a run of index lines:
a chunk is recorded for `t` exactly when some line whose first matching
requested tld is `t` carries that chunk id. -/
lemma mem_mapGet_scan (tlds : List Str) (lines : List Str)
    (m : List (Str × List Nat)) (t : Str) (c : Nat) :
    c ∈ Disk.mapGet (lines.foldl (Disk.scanLine tlds) m) t ↔
      c ∈ Disk.mapGet m t ∨ ∃ l ∈ lines,
        tlds.find? (fun u => startsWith l (u ++ [','])) = some t ∧
        Disk.chunkPatternSearch l = some c := by
  induction lines generalizing m with
  | nil => simp
  | cons l rest ih =>
      rw [List.foldl_cons, ih]
      have hstep : c ∈ Disk.mapGet (Disk.scanLine tlds m l) t ↔
          c ∈ Disk.mapGet m t ∨
            (tlds.find? (fun u => startsWith l (u ++ [','])) = some t ∧
             Disk.chunkPatternSearch l = some c) := by
        rw [Disk.scanLine]
        cases hf : tlds.find? (fun u => startsWith l (u ++ [','])) with
        | none => simp
        | some t0 =>
            cases hs : Disk.chunkPatternSearch l with
            | none => simp
            | some c0 =>
                rw [mapGet_mapAdd]
                simp only [Option.some.injEq]
                by_cases h2 : t = t0
                · subst h2
                  rw [if_pos rfl, mem_setInsert]
                  simp [eq_comm]
                · rw [if_neg h2]
                  constructor
                  · exact Or.inl
                  · rintro (hc | ⟨rfl, rfl⟩)
                    · exact hc
                    · exact absurd rfl h2
      rw [hstep]
      rw [List.exists_mem_cons_iff]
      tauto

/-- Membership in the union of the per-tld chunk sets. -/
lemma mem_foldl_union (g : Str → List Nat) (ts : List Str) (acc : List Nat)
    (c : Nat) :
    c ∈ ts.foldl (fun a t => (g t).foldl Disk.setInsert a) acc ↔
      c ∈ acc ∨ ∃ t ∈ ts, c ∈ g t := by
  induction ts generalizing acc with
  | nil => simp
  | cons t rest ih =>
      rw [List.foldl_cons, ih, mem_foldl_setInsert, List.exists_mem_cons_iff]
      tauto

/-- The union of the per-tld chunk sets is duplicate free. -/
lemma nodup_foldl_union (g : Str → List Nat) (ts : List Str) (acc : List Nat)
    (h : acc.Nodup) :
    (ts.foldl (fun a t => (g t).foldl Disk.setInsert a) acc).Nodup := by
  induction ts generalizing acc with
  | nil => exact h
  | cons t rest ih => exact ih _ (nodup_foldl_setInsert _ _ h)

/-- A successful tld lookup names a requested tld that prefixes the line. -/
lemma find?_tld_spec (tlds : List Str) (l t : Str)
    (h : tlds.find? (fun u => startsWith l (u ++ [','])) = some t) :
    t ∈ tlds ∧ startsWith l (t ++ [',']) = true :=
  ⟨List.mem_of_find?_eq_some h, by simpa using List.find?_some h⟩

/-- If one comma-terminated prefix extends another on the same line, the two
stems agree, provided the longer stem is comma free. -/
lemma comma_stem_eq (a b : Str) (h : (a ++ [',']) <+: (b ++ [',']))
    (hb : (',' : Char) ∉ b) : a = b := by
  obtain ⟨s, hs⟩ := h
  rcases List.eq_nil_or_concat s with rfl | ⟨s0, x, rfl⟩
  · rw [List.append_nil] at hs
    have h5 := congrArg List.dropLast hs
    simpa [List.dropLast_concat] using h5
  · rw [List.concat_eq_append, ← List.append_assoc] at hs
    have hx := congrArg List.getLast? hs
    rw [List.getLast?_concat, List.getLast?_concat] at hx
    have hdrop := congrArg List.dropLast hs
    rw [List.dropLast_concat, List.dropLast_concat] at hdrop
    exfalso
    apply hb
    rw [← hdrop]
    simp

/-- Two comma-free requested tlds that both prefix-match the same line are
equal. -/
lemma comma_unique (t1 t2 l : Str) (h1 : startsWith l (t1 ++ [',']) = true)
    (h2 : startsWith l (t2 ++ [',']) = true)
    (hc1 : (',' : Char) ∉ t1) (hc2 : (',' : Char) ∉ t2) : t1 = t2 := by
  rw [startsWith, List.isPrefixOf_iff_prefix] at h1 h2
  rcases List.prefix_or_prefix_of_prefix h1 h2 with h | h
  · exact comma_stem_eq t1 t2 h hc2
  · exact (comma_stem_eq t2 t1 h hc1).symm

/-- Under comma-free requested tlds, the first matching tld of a line is the
unique matching tld. -/
lemma find?_tld_eq (tlds : List Str) (l t : Str)
    (hcomma : ∀ u ∈ tlds, (',' : Char) ∉ u) (ht : t ∈ tlds)
    (hs : startsWith l (t ++ [',']) = true) :
    tlds.find? (fun u => startsWith l (u ++ [','])) = some t := by
  have hsome : (tlds.find? (fun u => startsWith l (u ++ [',']))).isSome :=
    List.find?_isSome.mpr ⟨t, ht, hs⟩
  obtain ⟨t2, ht2⟩ := Option.isSome_iff_exists.mp hsome
  obtain ⟨hmem, hsw⟩ := find?_tld_spec tlds l t2 ht2
  rw [ht2, comma_unique t2 t l hsw hs (hcomma t2 hmem) (hcomma t ht)]

/-- C9 (amended): over any requested tld set and cluster-index lines,
`find_chunks_for_tlds` raises no error and returns (a) a duplicate-free
ascending list holding exactly the chunk ids appearing on lines that start
with `tld,` for some requested tld, and (b) a per-tld map with an entry for
every requested tld — empty when no line matches — in which each line is
credited to the first matching tld of the request list; when no requested
tld contains a comma (true of every real TLD, and the only case the
counterexample excludes) the entry of each tld holds exactly the chunk ids
of the lines matching that tld, as the claim states. -/
theorem c9_find_chunks (tlds lines : List Str)
    (hcomma : ∀ t ∈ tlds, (',' : Char) ∉ t) :
    List.Sorted (· ≤ ·) (Disk.find_chunks_for_tlds tlds lines).1 ∧
    (Disk.find_chunks_for_tlds tlds lines).1.Nodup ∧
    (∀ c : Nat, c ∈ (Disk.find_chunks_for_tlds tlds lines).1 ↔
      ∃ l ∈ lines, (∃ t ∈ tlds, startsWith l (t ++ [',']) = true) ∧
        Disk.chunkPatternSearch l = some c) ∧
    (∀ t ∈ tlds,
      (t, Disk.mapGet (Disk.tldChunksOf tlds lines) t)
          ∈ (Disk.find_chunks_for_tlds tlds lines).2 ∧
      (∀ c : Nat, c ∈ Disk.mapGet (Disk.tldChunksOf tlds lines) t ↔
        ∃ l ∈ lines, startsWith l (t ++ [',']) = true ∧
          Disk.chunkPatternSearch l = some c)) := by
  have hmemall : ∀ c : Nat, c ∈ Disk.allChunksOf tlds lines ↔
      ∃ t ∈ tlds, c ∈ Disk.mapGet (Disk.tldChunksOf tlds lines) t := by
    intro c
    rw [Disk.allChunksOf]
    rw [mem_foldl_union (fun t => Disk.mapGet (Disk.tldChunksOf tlds lines) t)]
    simp
  refine ⟨List.sorted_insertionSort _ _, ?_, ?_, ?_⟩
  · exact (List.perm_insertionSort _ _).nodup_iff.mpr
      (nodup_foldl_union _ _ _ List.nodup_nil)
  · intro c
    rw [show (Disk.find_chunks_for_tlds tlds lines).1
        = List.insertionSort (· ≤ ·) (Disk.allChunksOf tlds lines) from rfl]
    rw [(List.perm_insertionSort _ _).mem_iff, hmemall]
    constructor
    · rintro ⟨t, ht, hc⟩
      rw [Disk.tldChunksOf, mem_mapGet_scan] at hc
      rcases hc with hc | ⟨l, hl, hf, hs⟩
      · simp [mapGet_nil] at hc
      · obtain ⟨hmem, hsw⟩ := find?_tld_spec tlds l t hf
        exact ⟨l, hl, ⟨t, hmem, hsw⟩, hs⟩
    · rintro ⟨l, hl, ⟨t, ht, hsw⟩, hs⟩
      have hsome : (tlds.find? (fun u => startsWith l (u ++ [',']))).isSome :=
        List.find?_isSome.mpr ⟨t, ht, hsw⟩
      obtain ⟨t2, ht2⟩ := Option.isSome_iff_exists.mp hsome
      refine ⟨t2, (find?_tld_spec tlds l t2 ht2).1, ?_⟩
      rw [Disk.tldChunksOf, mem_mapGet_scan]
      exact Or.inr ⟨l, hl, ht2, hs⟩
  · intro t ht
    constructor
    · exact List.mem_map.mpr ⟨t, ht, rfl⟩
    · intro c
      rw [Disk.tldChunksOf, mem_mapGet_scan]
      constructor
      · rintro (hc | ⟨l, hl, hf, hs⟩)
        · simp [mapGet_nil] at hc
        · exact ⟨l, hl, (find?_tld_spec tlds l t hf).2, hs⟩
      · rintro ⟨l, hl, hsw, hs⟩
        exact Or.inr ⟨l, hl, find?_tld_eq tlds l t hcomma ht hsw, hs⟩

/-- C9 counterexample: the per-tld map does not always hold every matching
line, because a line is credited only to the FIRST matching requested tld.
With requested identifiers "a" and "a,b", the line "a,b,c 1 cdx-00007.gz"
matches both, chunk 7 is credited to "a" only, and the entry of "a,b" is
empty although the claim requires it to contain 7. -/
theorem c9_counterexample :
    (∃ l ∈ ["a,b,c 1 cdx-00007.gz".toList],
      startsWith l ("a,b".toList ++ [',']) = true ∧
      Disk.chunkPatternSearch l = some 7) ∧
    Disk.mapGet
      (Disk.find_chunks_for_tlds ["a".toList, "a,b".toList]
        ["a,b,c 1 cdx-00007.gz".toList]).2 ("a,b".toList) = [] ∧
    Disk.mapGet
      (Disk.find_chunks_for_tlds ["a".toList, "a,b".toList]
        ["a,b,c 1 cdx-00007.gz".toList]).2 ("a".toList) = [7] := by
  decide

/-- Witness for C9: on comma-free tlds the chunk list comes back sorted. -/
theorem c9_witness :
    List.Sorted (· ≤ ·)
      (Disk.find_chunks_for_tlds ["cl".toList, "pe".toList]
        ["cl,shop) 1 cdx-00003.gz".toList]).1 :=
  (c9_find_chunks ["cl".toList, "pe".toList]
    ["cl,shop) 1 cdx-00003.gz".toList] (by decide)).1

end CCV
